import Mathlib

/-!
Shallow embedding of the bundling / fair-ordering core of the DEX-Aggregator
repository: the zk-proof service (`zkProofs.ts`), the ERC-4337 types module
(`src/libs/erc4337/types.ts`), and the two parallel `SmartAccountBundler`
classes found in the source (one keyed on `BundleIntent`, one on `SwapIntent`).

Modelling conventions:
- JavaScript `number` timestamps and durations become `Int` (millisecond
  arithmetic, `Date.now() - t` may be compared against constants exactly as
  in the source).
- A JavaScript `Map` becomes an insertion-ordered association list; `set`
  replaces the value in place when the key is present, appends otherwise.
- External I/O (OKX quote fetch, user-operation creation, transaction
  submission) is passed in as explicit oracle arguments: an assembly oracle
  saying whether user-operation creation succeeds for an intent, and a
  Boolean saying whether on-chain submission succeeds.
- Fields whose values are produced by floating-point arithmetic or random
  mock blobs (slippage maths, `minToAmount`, groth16 proof points, gas
  fields) are elided: no verified property reads them.
-/

namespace DexAggregator

/-- Status of a swap intent, from `SwapIntent.status` and
`BundleIntent.status` in the source: `pending | bundled | executed | failed`. -/
inductive IntentStatus where
  | pending
  | bundled
  | executed
  | failed
deriving DecidableEq, Repr

/-- Status of a bundle, from `Bundle.status` in `types.ts`:
`pending | submitted | confirmed | failed`. -/
inductive BundleStatus where
  | pending
  | submitted
  | confirmed
  | failed
deriving DecidableEq, Repr

/-- A JavaScript `Map<string, α>` as an insertion-ordered association list. -/
abbrev JsMap (α : Type) : Type := List (String × α)

/-- JavaScript `Map.prototype.set`: replace in place when the key exists
(keeping its position), append otherwise. -/
def mapSet {α : Type} (m : JsMap α) (k : String) (v : α) : JsMap α :=
  if m.any (fun p => p.1 == k) then
    m.map (fun p => if p.1 == k then (k, v) else p)
  else
    m ++ [(k, v)]

/-- JavaScript `Map.prototype.get`, as an `Option`. -/
def mapGet {α : Type} (m : JsMap α) (k : String) : Option α :=
  (m.find? (fun p => p.1 == k)).map (fun p => p.2)

/-- JavaScript `Array.from(map.values())`: the values in insertion order. -/
def mapValues {α : Type} (m : JsMap α) : List α :=
  m.map (fun p => p.2)

/-- Lexicographic order on character lists (by code point), used to give the
spec "ties broken by `id`" an executable meaning. -/
def charListLt : List Char → List Char → Bool
  | [], [] => false
  | [], _ :: _ => true
  | _ :: _, [] => false
  | a :: as, b :: bs =>
    if a.toNat < b.toNat then true
    else if a.toNat = b.toNat then charListLt as bs
    else false

/-- Lexicographic order on strings, by their character lists. -/
def strLtB (a b : String) : Bool :=
  charListLt a.data b.data

/-! ## zkProofs.ts : the fair-ordering proof service -/

namespace ZkProofs

/-- The `ZKProof` interface of `api/types`: the groth16 point blob is elided
(it is a random mock in the source and no verified property reads it); the
public-signal list is kept. -/
structure ZKProof where
  publicSignals : List String
deriving DecidableEq, Repr

/-- The `FairOrderingProof` interface of `api/types`. -/
structure FairOrderingProof where
  zkProof : ZKProof
  commitment : String
  nullifier : String
  timestamp : Int
  isValid : Bool
deriving DecidableEq, Repr

/-- The `FairOrderingInput` interface of `zkProofs.ts`. -/
structure FairOrderingInput where
  userAddress : String
  fromToken : String
  toToken : String
  amount : String
  timestamp : Int
deriving DecidableEq, Repr

/-- Embedding of `verifyFairOrderingProof(proof)`. The source reads the
clock via `Date.now()`; here the clock is the explicit argument `now`.
The body is
`proof.isValid && proof.zkProof.publicSignals.length === 2 && proof.timestamp > 0 && Date.now() - proof.timestamp < 300000`;
nothing in it can throw, so the surrounding try/catch is dead and the
embedding is a total function. -/
def verifyFairOrderingProof (now : Int) (proof : FairOrderingProof) : Bool :=
  proof.isValid &&
  proof.zkProof.publicSignals.length == 2 &&
  decide (proof.timestamp > 0) &&
  decide (now - proof.timestamp < 300000)

/-- Follows the spec words (for comparison with `verifyFairOrderingProof`):
"Returns false ... for structurally invalid proofs: wrong public-signal
count, non-positive or stale timestamp (`now - timestamp > 300_000 ms`),
or `isValid=false`" — i.e. it returns true unless one of those four
conditions holds, the staleness bound being strict. -/
def specVerifyIntentProof (now : Int) (proof : FairOrderingProof) : Bool :=
  !(proof.zkProof.publicSignals.length != 2 ||
    decide (proof.timestamp ≤ 0) ||
    decide (now - proof.timestamp > 300000) ||
    !proof.isValid)

/-- Insertion step of the stable sort performed by
`[...proofs].sort((a, b) => a.timestamp - b.timestamp)`: the new element goes
after every element with a less-or-equal timestamp, so equal-timestamp
elements keep their presentation order (JavaScript `sort` is stable). -/
def insertProofByTimestamp (p : FairOrderingProof) :
    List FairOrderingProof → List FairOrderingProof
  | [] => [p]
  | q :: rest =>
    if q.timestamp ≤ p.timestamp then q :: insertProofByTimestamp p rest
    else p :: q :: rest

/-- Stable sort of proofs by `timestamp`, as
`[...proofs].sort((a, b) => a.timestamp - b.timestamp)` in `verifyFairOrdering`. -/
def sortProofsByTimestamp (proofs : List FairOrderingProof) : List FairOrderingProof :=
  proofs.foldl (fun acc p => insertProofByTimestamp p acc) []

/-- The for-loop of `verifyFairOrdering`, walking the (sorted) list:
returns false at the first proof with `isValid` false, or at the first
adjacent pair whose timestamps decrease; `prev` carries the previous
element timestamp. -/
def allValidAndOrdered : Option Int → List FairOrderingProof → Bool
  | _, [] => true
  | prev, p :: rest =>
    if !p.isValid then false
    else
      match prev with
      | some t =>
        if decide (p.timestamp < t) then false
        else allValidAndOrdered (some p.timestamp) rest
      | none => allValidAndOrdered (some p.timestamp) rest

/-- Embedding of `verifyFairOrdering(proofs)`: sort a copy of the list by
timestamp, then run the validity/ordering loop over the sorted list. -/
def verifyFairOrdering (proofs : List FairOrderingProof) : Bool :=
  allValidAndOrdered none (sortProofsByTimestamp proofs)

/-- Model of the JavaScript `BigInt(string)` conversion used inside
`generateBatchProof`: succeeds on decimal digit strings, fails (throws, in
JavaScript) otherwise. The exact accepted grammar is wider in JavaScript;
only totality on the empty batch and the success/failure split matter here. -/
def parseDecDigits : List Char → Nat → Option Nat
  | [], acc => some acc
  | c :: rest, acc =>
    if 48 ≤ c.toNat ∧ c.toNat ≤ 57 then parseDecDigits rest (acc * 10 + (c.toNat - 48))
    else none

def jsBigInt (s : String) : Option Int :=
  (parseDecDigits s.data 0).map Int.ofNat

/-- Embedding of `generateBatchProof(inputs)`. The try-block converts each
member `userAddress` and `amount` with `BigInt` (timestamps are already
numbers) and builds the result; a conversion failure is caught and re-thrown
as `an Error with message Batch proof generation failed`, modelled as `Except.error`.
There is no emptiness check: on `[]` no conversion runs and the function
returns a proof whose public signals are `["0"]`. -/
def generateBatchProof (inputs : List FairOrderingInput) : Except String ZKProof :=
  if inputs.all (fun i => (jsBigInt i.userAddress).isSome && (jsBigInt i.amount).isSome) then
    Except.ok
      { publicSignals :=
          toString inputs.length :: inputs.map (fun i => toString i.timestamp) }
  else
    Except.error "Batch proof generation failed"

/-- A well-formed, individually valid proof with the given timestamp, used
as concrete test data. -/
def proofAt (ts : Int) : FairOrderingProof :=
  { zkProof := { publicSignals := [toString ts, "7"] }
    commitment := "c"
    nullifier := "n"
    timestamp := ts
    isValid := true }

end ZkProofs

/-! ## erc4337/types.ts : data types and factories -/

namespace Erc4337Types

/-- The `SwapIntent` interface of `erc4337/types.ts`. `slippage` and
`minToAmount` are produced by floating-point arithmetic in the source and
are elided (no verified property reads them); `zkProof` is kept as an
optional tag. -/
structure SwapIntent where
  id : String
  user : String
  fromToken : String
  toToken : String
  fromAmount : String
  deadline : Int
  mevProtection : Bool
  status : IntentStatus
  timestamp : Int
deriving DecidableEq, Repr

/-- The `UserOperation` interface of `erc4337/types.ts`; gas fields are
constant strings from `DEFAULT_GAS_LIMITS` and are elided, the fields used
by the bundler validity check and assembly are kept. -/
structure UserOperation where
  sender : String
  nonce : String
  callData : String
  signature : String
  hash : String
deriving DecidableEq, Repr

/-- The `Bundle` interface of `erc4337/types.ts` (txHash elided: it is set
from the receipt and no verified property reads it). -/
structure Bundle where
  id : String
  userOperations : List UserOperation
  status : BundleStatus
  timestamp : Int
  mevProtection : Bool
  fairOrdering : Bool
deriving DecidableEq, Repr

/-- Embedding of the `createSwapIntent` factory of `erc4337/types.ts`:
`id = intent_${Date.now()}_${Math.random().toString(36).slice(2)}`,
`status = pending`, `timestamp = Date.now()`,
`deadline = Date.now() + 20 * 60 * 1000`. The clock and the random salt
are explicit arguments. -/
def createSwapIntent (now : Int) (salt : String) (user fromToken toToken fromAmount : String)
    (mevProtection : Bool) : SwapIntent :=
  { id := "intent_" ++ toString now ++ "_" ++ salt
    user := user
    fromToken := fromToken
    toToken := toToken
    fromAmount := fromAmount
    deadline := now + 20 * 60 * 1000
    mevProtection := mevProtection
    status := IntentStatus.pending
    timestamp := now }

/-- Embedding of the `createBundle` factory of `erc4337/types.ts`:
`id = bundle_${Date.now()}_${random}`, `status = pending`,
`timestamp = Date.now()`. -/
def createBundle (now : Int) (salt : String) (userOperations : List UserOperation)
    (mevProtection fairOrdering : Bool) : Bundle :=
  { id := "bundle_" ++ toString now ++ "_" ++ salt
    userOperations := userOperations
    status := BundleStatus.pending
    timestamp := now
    mevProtection := mevProtection
    fairOrdering := fairOrdering }

end Erc4337Types

/-! ## The `SmartAccountBundler` of `src/libs/erc4337/bundler.ts`
(keyed on `SwapIntent`; called BundlerB here to distinguish it from the
parallel class in `src/libs/zk/bundler.ts`, BundlerA below). -/

namespace BundlerB

open Erc4337Types

/-- The mutable state of the `SmartAccountBundler` class:
`pendingIntents : Map<string, SwapIntent>`, `bundleQueue : SwapIntent[]`,
`activeBundles : Map<string, Bundle>`. `BUNDLE_SIZE = 5`,
`BUNDLE_TIMEOUT = 10000`. -/
structure BundlerState where
  pendingIntents : JsMap SwapIntent
  bundleQueue : List SwapIntent
  activeBundles : JsMap Bundle
deriving Repr

/-- The empty initial state of a freshly constructed bundler. -/
def initialState : BundlerState :=
  { pendingIntents := [], bundleQueue := [], activeBundles := [] }

/-- Embedding of `getOldestIntentAge()`:
`Date.now() - Math.min(...this.bundleQueue.map(intent => intent.timestamp))`,
and `0` when the queue is empty. -/
def getOldestIntentAge (queue : List SwapIntent) (now : Int) : Int :=
  match queue with
  | [] => 0
  | i :: rest => now - (rest.map (fun j => j.timestamp)).foldl min i.timestamp

/-- Embedding of `shouldCreateBundle()`:
`bundleQueue.length >= BUNDLE_SIZE || (bundleQueue.length > 0 && getOldestIntentAge() > BUNDLE_TIMEOUT)`. -/
def shouldCreateBundle (queue : List SwapIntent) (now : Int) : Bool :=
  decide (5 ≤ queue.length) ||
  (decide (0 < queue.length) && decide (getOldestIntentAge queue now > 10000))

/-- Follows the spec words (for comparison with `shouldCreateBundle`):
"batch closes when `pendingCount ≥ MAX_BUNDLE_SIZE` (default 5) OR
`(pendingCount > 0 AND now - oldestPending.createdAt ≥ BUNDLE_TIMEOUT)`
(default 10,000 ms)" — the timeout comparison being inclusive. -/
def specShouldCreateBundle (queue : List SwapIntent) (now : Int) : Bool :=
  decide (5 ≤ queue.length) ||
  (decide (0 < queue.length) && decide (getOldestIntentAge queue now ≥ 10000))

/-- The first loop of `createBundle()`: for each intent taken into the
bundle, ask the external collaborators for transaction data and a user
operation (`assemble`, the oracle for `getSwapTransactionData` +
`createUserOperation`); on success push the operation, on an exception mark
the intent `failed` and write it back to `pendingIntents`. Returns the
collected operations and the updated map. -/
def assemblyPhase (assemble : SwapIntent → Option UserOperation) :
    List SwapIntent → JsMap SwapIntent → List UserOperation × JsMap SwapIntent
  | [], m => ([], m)
  | i :: rest, m =>
    match assemble i with
    | some op =>
      let (ops, m2) := assemblyPhase assemble rest m
      (op :: ops, m2)
    | none =>
      assemblyPhase assemble rest (mapSet m i.id { i with status := IntentStatus.failed })

/-- Embedding of `createBundle()` of `erc4337/bundler.ts`. Oracles:
`assemble` decides the outcome of per-intent user-operation assembly,
`submitSucceeds` the outcome of `createBundleTransaction(...)` / `tx.wait()`,
`now`/`salt` feed the `createBundle` factory of `types.ts`.
Control flow as in the source: return unchanged on an empty queue; splice
the first `BUNDLE_SIZE` intents off the queue; run the assembly loop; if no
operation survived, return; otherwise create and register the bundle; on
submission success set the bundle `confirmed` and set EVERY intent of
`intentsToBundle` to `executed` (the loop runs over `intentsToBundle`,
not over the survivors); on submission failure set the bundle and every
member to `failed`. -/
def createBundle (assemble : SwapIntent → Option UserOperation) (submitSucceeds : Bool)
    (now : Int) (salt : String) (st : BundlerState) : BundlerState :=
  if st.bundleQueue.isEmpty then st
  else
    let intentsToBundle := st.bundleQueue.take 5
    let rest := st.bundleQueue.drop 5
    let (userOps, m1) := assemblyPhase assemble intentsToBundle st.pendingIntents
    if userOps.isEmpty then
      { st with bundleQueue := rest, pendingIntents := m1 }
    else
      let bundle := Erc4337Types.createBundle now salt userOps true true
      if submitSucceeds then
        let bundle2 := { bundle with status := BundleStatus.confirmed }
        let m2 := intentsToBundle.foldl
          (fun m i => mapSet m i.id { i with status := IntentStatus.executed }) m1
        { pendingIntents := m2
          bundleQueue := rest
          activeBundles := mapSet st.activeBundles bundle.id bundle2 }
      else
        let bundle2 := { bundle with status := BundleStatus.failed }
        let m2 := intentsToBundle.foldl
          (fun m i => mapSet m i.id { i with status := IntentStatus.failed }) m1
        { pendingIntents := m2
          bundleQueue := rest
          activeBundles := mapSet st.activeBundles bundle.id bundle2 }

/-- Embedding of `createSwapIntent(...)` of `erc4337/bundler.ts`: build the
intent through the `types.ts` factory, store it in `pendingIntents`, push it
on `bundleQueue`, then run `createBundle()` if `shouldCreateBundle()` holds. -/
def createSwapIntentOp (assemble : SwapIntent → Option UserOperation) (submitSucceeds : Bool)
    (now : Int) (salt bundleSalt : String) (user fromToken toToken fromAmount : String)
    (st : BundlerState) : BundlerState :=
  let intent := Erc4337Types.createSwapIntent now salt user fromToken toToken fromAmount true
  let st1 : BundlerState :=
    { st with
      pendingIntents := mapSet st.pendingIntents intent.id intent
      bundleQueue := st.bundleQueue ++ [intent] }
  if shouldCreateBundle st1.bundleQueue now then
    createBundle assemble submitSucceeds now bundleSalt st1
  else
    st1

/-- Embedding of the public accessor `getPendingIntents()` of
`erc4337/bundler.ts`: `Array.from(this.pendingIntents.values())` — every
stored intent, with no status filter. -/
def getPendingIntents (st : BundlerState) : List SwapIntent :=
  mapValues st.pendingIntents

end BundlerB

/-! ## The `SmartAccountBundler` of `src/libs/zk/bundler.ts`
(keyed on `BundleIntent`; BundlerA). -/

namespace BundlerA

/-- The `BundleIntent` interface of `api/types`, with `swapData` flattened
into the record. The embedded `userOp` (built from external quote data and
an on-chain nonce before the intent is stored) is elided: no verified
property reads it. -/
structure BundleIntent where
  id : String
  fromToken : String
  toToken : String
  amount : String
  expectedOutput : String
  timestamp : Int
  status : IntentStatus
deriving DecidableEq, Repr

/-- Stand-in for `ethers.id(s)` (the keccak-256 hash of the UTF-8 string
`s`, as a hex string). It is modelled as a plain tagging function; the
development relies only on `ethersId` being a function of its argument
(equal inputs give equal ids), never on injectivity. -/
def ethersId (s : String) : String :=
  "keccak256:" ++ s

/-- The id assigned by `createSwapIntent` of `zk/bundler.ts`:
`ethers.id(`\x7b userAddress \x7d-\x7b Date.now() \x7d`)` — a function of the
user address and the admission millisecond only. -/
def intentId (userAddress : String) (now : Int) : String :=
  ethersId (userAddress ++ "-" ++ toString now)

/-- The mutable state of the `SmartAccountBundler` class of `zk/bundler.ts`:
`pendingIntents : Map<string, BundleIntent>` and
`bundleQueue : BundleIntent[]`. `BUNDLE_SIZE = 5`, `BUNDLE_TIMEOUT = 10000`. -/
structure BundlerState where
  pendingIntents : JsMap BundleIntent
  bundleQueue : List BundleIntent
deriving Repr

/-- The empty initial state of a freshly constructed bundler. -/
def initialState : BundlerState :=
  { pendingIntents := [], bundleQueue := [] }

/-- Embedding of `shouldCreateBundle()` of `zk/bundler.ts`:
`bundleQueue.length >= BUNDLE_SIZE || (bundleQueue.length > 0 && Date.now() - bundleQueue[0].timestamp > BUNDLE_TIMEOUT)`. -/
def shouldCreateBundle (queue : List BundleIntent) (now : Int) : Bool :=
  decide (5 ≤ queue.length) ||
  (match queue with
   | [] => false
   | i :: _ => decide (now - i.timestamp > 10000))

/-- Insertion step of the stable sort performed by
`bundleQueue.sort((a, b) => a.timestamp - b.timestamp)`: the new element
goes after every element with a less-or-equal timestamp, so
equal-timestamp elements keep their queue (admission) order (JavaScript
`sort` is stable). -/
def insertIntentByTimestamp (p : BundleIntent) :
    List BundleIntent → List BundleIntent
  | [] => [p]
  | q :: rest =>
    if q.timestamp ≤ p.timestamp then q :: insertIntentByTimestamp p rest
    else p :: q :: rest

/-- Stable sort of the queue by `timestamp`, as
`this.bundleQueue.sort((a, b) => a.timestamp - b.timestamp)` in
`createBundle()` of `zk/bundler.ts`. -/
def sortIntentsByTimestamp (queue : List BundleIntent) : List BundleIntent :=
  queue.foldl (fun acc p => insertIntentByTimestamp p acc) []

/-- The member selection of `createBundle()` of `zk/bundler.ts`: sort the
queue by timestamp (in place), then `splice(0, BUNDLE_SIZE)` — the first
five elements of the sorted queue become the bundle members, in that
order. -/
def bundleMembers (queue : List BundleIntent) : List BundleIntent :=
  (sortIntentsByTimestamp queue).take 5

/-- Follows the spec words (for comparison with `bundleMembers`): members
are the oldest pending intents "ordered strictly by creation timestamp
(`createdAt`), with ties broken by `id`" — an insertion sort by the
lexicographic key `(timestamp, id)`. -/
def specInsertByTimestampThenId (p : BundleIntent) :
    List BundleIntent → List BundleIntent
  | [] => [p]
  | q :: rest =>
    if decide (q.timestamp < p.timestamp) ||
       (decide (q.timestamp = p.timestamp) && !(strLtB p.id q.id)) then
      q :: specInsertByTimestampThenId p rest
    else p :: q :: rest

/-- Follows the spec words: the member list of a closing batch, ordered
by `(createdAt, id)` and truncated to `MAX_BUNDLE_SIZE`. -/
def specFifoMembers (queue : List BundleIntent) : List BundleIntent :=
  (queue.foldl (fun acc p => specInsertByTimestampThenId p acc) []).take 5

/-- Embedding of `createBundle()` of `zk/bundler.ts`: return unchanged on an
empty queue; sort the queue in place by timestamp and splice off the first
`BUNDLE_SIZE` intents; build and send the bundle transaction
(`submitSucceeds` is the oracle for `bundlerWallet.sendTransaction`); on
success mark every member `bundled`, on an exception mark every member
`failed`, writing each back to `pendingIntents`. -/
def createBundle (submitSucceeds : Bool) (st : BundlerState) : BundlerState :=
  if st.bundleQueue.isEmpty then st
  else
    let sorted := sortIntentsByTimestamp st.bundleQueue
    let bundleIntents := sorted.take 5
    let rest := sorted.drop 5
    if submitSucceeds then
      { pendingIntents :=
          bundleIntents.foldl
            (fun m i => mapSet m i.id { i with status := IntentStatus.bundled }) st.pendingIntents
        bundleQueue := rest }
    else
      { pendingIntents :=
          bundleIntents.foldl
            (fun m i => mapSet m i.id { i with status := IntentStatus.failed }) st.pendingIntents
        bundleQueue := rest }

/-- Embedding of `createSwapIntent(...)` of `zk/bundler.ts`: generate the
fair-ordering proof and quote (external; the quote `expectedOutput` is an
oracle argument), build the intent with
`id = ethers.id(user + "-" + now)`, `status = pending`,
`timestamp = now`, store it in `pendingIntents`, push it on `bundleQueue`,
then run `createBundle()` if `shouldCreateBundle()` holds. -/
def createSwapIntentOp (submitSucceeds : Bool) (now : Int)
    (user fromToken toToken amount expectedOutput : String)
    (st : BundlerState) : BundlerState :=
  let intent : BundleIntent :=
    { id := intentId user now
      fromToken := fromToken
      toToken := toToken
      amount := amount
      expectedOutput := expectedOutput
      timestamp := now
      status := IntentStatus.pending }
  let st1 : BundlerState :=
    { pendingIntents := mapSet st.pendingIntents intent.id intent
      bundleQueue := st.bundleQueue ++ [intent] }
  if shouldCreateBundle st1.bundleQueue now then
    createBundle submitSucceeds st1
  else
    st1

/-- Embedding of the public accessor `getPendingIntents()` of
`zk/bundler.ts`:
`Array.from(this.pendingIntents.values()).filter(intent => intent.status === pending)`. -/
def getPendingIntents (st : BundlerState) : List BundleIntent :=
  (mapValues st.pendingIntents).filter (fun i => i.status == IntentStatus.pending)

end BundlerA

/-! ## Concrete test data used by the verification scenarios -/

/-- A concrete user operation for an intent, standing for the result of a
successful external assembly (quote fetch + user-operation creation). -/
def opOf (i : Erc4337Types.SwapIntent) : Erc4337Types.UserOperation :=
  { sender := i.user
    nonce := "1"
    callData := "0xdata"
    signature := "0xsig"
    hash := "h_" ++ i.id }

/-- A concrete swap intent admitted at time `ts` with id salt `salt`. -/
def sIntent (salt : String) (ts : Int) : Erc4337Types.SwapIntent :=
  Erc4337Types.createSwapIntent ts salt "0xuser" "TOKA" "TOKB" "100" true

/-- Intent admitted at t = 0. -/
def s1 : Erc4337Types.SwapIntent := sIntent "a" 0

/-- Intent admitted at t = 1. -/
def s2 : Erc4337Types.SwapIntent := sIntent "b" 1

/-- Intent admitted at t = 2. -/
def s3 : Erc4337Types.SwapIntent := sIntent "c" 2

/-- Intent admitted at t = 3. -/
def s4 : Erc4337Types.SwapIntent := sIntent "d" 3

/-- Intent admitted at t = 4. -/
def s5 : Erc4337Types.SwapIntent := sIntent "e" 4

/-- BundlerB state holding the two pending intents `s1`, `s2`. -/
def stB2 : BundlerB.BundlerState :=
  { pendingIntents := [(s1.id, s1), (s2.id, s2)]
    bundleQueue := [s1, s2]
    activeBundles := [] }

/-- Assembly oracle that fails (throws) exactly for `s1` and succeeds for
every other intent. -/
def assembleFailS1 : Erc4337Types.SwapIntent → Option Erc4337Types.UserOperation :=
  fun i => if i.id == s1.id then none else some (opOf i)

/-- BundlerB state holding the five pending intents `s1` … `s5`. -/
def stB5 : BundlerB.BundlerState :=
  { pendingIntents := [(s1.id, s1), (s2.id, s2), (s3.id, s3), (s4.id, s4), (s5.id, s5)]
    bundleQueue := [s1, s2, s3, s4, s5]
    activeBundles := [] }

/-- Assembly oracle that fails exactly for the third intent `s3`. -/
def assembleFailS3 : Erc4337Types.SwapIntent → Option Erc4337Types.UserOperation :=
  fun i => if i.id == s3.id then none else some (opOf i)

/-- The result of closing the five-intent batch `stB5` when assembly fails
for `s3` only and the on-chain submission succeeds. -/
def stB5closed : BundlerB.BundlerState :=
  BundlerB.createBundle assembleFailS3 true 100 "z" stB5

/-- BundlerB state holding the single pending intent `s1`. -/
def stB1 : BundlerB.BundlerState :=
  { pendingIntents := [(s1.id, s1)]
    bundleQueue := [s1]
    activeBundles := [] }

/-- The result of closing the one-intent batch `stB1` when assembly fails
for every member: the early return fires before any bundle is created. -/
def stB1closed : BundlerB.BundlerState :=
  BundlerB.createBundle (fun _ => none) true 100 "z" stB1

/-- BundlerA state after a single admission at t = 0 with no further
operations (the C4 scenario). -/
def stA1 : BundlerA.BundlerState :=
  BundlerA.createSwapIntentOp true 0 "0xalice" "TOKA" "TOKB" "100" "99" BundlerA.initialState

/-- BundlerA state after a second admission at t = 20000 (past the 10 s
timeout measured from the first intent), which triggers a bundle. -/
def stA2 : BundlerA.BundlerState :=
  BundlerA.createSwapIntentOp true 20000 "0xbob" "TOKA" "TOKB" "100" "99" stA1

/-- BundlerA state after one admission by user `0xalice` at t = 1000. -/
def stC1 : BundlerA.BundlerState :=
  BundlerA.createSwapIntentOp true 1000 "0xalice" "TOKA" "TOKB" "100" "99" BundlerA.initialState

/-- BundlerA state after a second admission by the same user `0xalice` in
the same millisecond t = 1000 (the C9 collision scenario). -/
def stC2 : BundlerA.BundlerState :=
  BundlerA.createSwapIntentOp true 1000 "0xalice" "TOKA" "TOKB" "200" "199" stC1

/-- A bundle intent with id `"b"` admitted at t = 5. -/
def iB : BundlerA.BundleIntent :=
  { id := "b"
    fromToken := "TOKA"
    toToken := "TOKB"
    amount := "1"
    expectedOutput := "1"
    timestamp := 5
    status := IntentStatus.pending }

/-- A bundle intent with id `"a"`, also admitted at t = 5: same timestamp
as `iB`, smaller id. -/
def iA : BundlerA.BundleIntent :=
  { iB with id := "a" }

/-- A registry holding one intent of each non-pending status, as left
behind after a bundle resolves. -/
def mixedMapB : JsMap Erc4337Types.SwapIntent :=
  [("k1", { s1 with status := IntentStatus.bundled }),
   ("k2", { s2 with status := IntentStatus.executed }),
   ("k3", { s3 with status := IntentStatus.failed })]

/-- A BundlerB state whose registry is `mixedMapB`. -/
def stMixedB : BundlerB.BundlerState :=
  { pendingIntents := mixedMapB, bundleQueue := [], activeBundles := [] }

/-- A well-formed batch-proof input whose `userAddress` and `amount` are
numeric strings (so the BigInt conversions succeed). -/
def fInput : ZkProofs.FairOrderingInput :=
  { userAddress := "12"
    fromToken := "1"
    toToken := "2"
    amount := "34"
    timestamp := 5 }

/-! ## Helper lemmas -/

/-- Inserting an element whose timestamp dominates everything in the
accumulator appends it at the end. -/
theorem insertIntent_of_all_le (p : BundlerA.BundleIntent) (acc : List BundlerA.BundleIntent)
    (h : ∀ j ∈ acc, j.timestamp ≤ p.timestamp) :
    BundlerA.insertIntentByTimestamp p acc = acc ++ [p] := by
  induction acc with
  | nil => rfl
  | cons q rest ih =>
    rw [BundlerA.insertIntentByTimestamp, if_pos (h q (by simp))]
    rw [ih (fun j hj => h j (by simp [hj]))]
    simp

/-- Folding the insertion step over a list that extends an already
timestamp-sorted accumulator reproduces the concatenation. -/
theorem foldl_insert_sorted (q : List BundlerA.BundleIntent) :
    ∀ (acc : List BundlerA.BundleIntent),
      (acc ++ q).Pairwise (fun a b => a.timestamp ≤ b.timestamp) →
      q.foldl (fun acc p => BundlerA.insertIntentByTimestamp p acc) acc = acc ++ q := by
  induction q with
  | nil => intro acc _; simp
  | cons p rest ih =>
    intro acc h
    have hle : ∀ j ∈ acc, j.timestamp ≤ p.timestamp := by
      have h3 := (List.pairwise_append.mp h).2.2
      intro j hj
      exact h3 j hj p (by simp)
    rw [List.foldl_cons, insertIntent_of_all_le p acc hle]
    have heq : (acc ++ [p]) ++ rest = acc ++ p :: rest := by simp
    rw [ih (acc ++ [p]) (by rw [heq]; exact h), heq]

/-- The bundler stable sort leaves a queue that is already in nondecreasing
timestamp order unchanged. -/
theorem sortIntents_of_sorted (q : List BundlerA.BundleIntent)
    (h : q.Pairwise (fun a b => a.timestamp ≤ b.timestamp)) :
    BundlerA.sortIntentsByTimestamp q = q := by
  have := foldl_insert_sorted q [] (by simpa using h)
  simpa [BundlerA.sortIntentsByTimestamp] using this

/-- Characterisation of `List.foldl min`: the result is the seed or a list
member, and it is a lower bound of the seed and of every member. -/
theorem foldl_min_spec (l : List Int) :
    ∀ (a : Int),
      (l.foldl min a = a ∨ l.foldl min a ∈ l) ∧
      l.foldl min a ≤ a ∧ ∀ b ∈ l, l.foldl min a ≤ b := by
  induction l with
  | nil => intro a; simp
  | cons c rest ih =>
    intro a
    obtain ⟨hmem, hle, hall⟩ := ih (min a c)
    refine ⟨?_, ?_, ?_⟩
    · rcases hmem with h | h
      · rcases le_total a c with hac | hca
        · left; rw [List.foldl_cons, h, min_eq_left hac]
        · right; rw [List.foldl_cons, h, min_eq_right hca]; simp
      · right
        rw [List.foldl_cons]
        exact List.mem_cons_of_mem c h
    · exact le_trans hle (min_le_left a c)
    · intro b hb
      rcases List.mem_cons.mp hb with rfl | hb
      · exact le_trans hle (min_le_right a b)
      · exact hall b hb

/-! ## Claim theorems -/

/-- C1: terminal status immutability is violated by `createBundle` of
`erc4337/bundler.ts`. Closing the two-intent batch `stB2` with assembly
failing for `s1` first marks `s1` as failed (assembly phase), but the
success branch then iterates over all of `intentsToBundle` and overwrites
the terminal failed status of `s1` with executed. -/
theorem c1_failed_status_overwritten_to_executed :
    (mapGet (BundlerB.assemblyPhase assembleFailS1 [s1, s2] stB2.pendingIntents).2 s1.id).map
        (fun i => i.status) = some IntentStatus.failed ∧
    (mapGet (BundlerB.createBundle assembleFailS1 true 100 "z" stB2).pendingIntents s1.id).map
        (fun i => i.status) = some IntentStatus.executed :=
  ⟨rfl, rfl⟩

/-- C2: failure isolation at bundle close, evaluated on the code. In the
five-intent batch with assembly failing exactly for `s3`, the submitted
bundle indeed carries only the four surviving operations, but `s3` ends
with status executed rather than failed (the success loop overwrites it);
and when assembly fails for every member (`stB1closed`), the early return
fires before any bundle object is created, so no bundle is marked failed —
the lone intent is individually failed and `activeBundles` stays empty. -/
theorem c2_failure_isolation_behaviour_at_bundle_close :
    (mapGet stB5closed.activeBundles "bundle_100_z").map
        (fun b => b.userOperations.length) = some 4 ∧
    (mapGet stB5closed.pendingIntents s3.id).map
        (fun i => i.status) = some IntentStatus.executed ∧
    stB1closed.activeBundles = ([] : JsMap Erc4337Types.Bundle) ∧
    (mapGet stB1closed.pendingIntents s1.id).map
        (fun i => i.status) = some IntentStatus.failed :=
  ⟨rfl, rfl, rfl, rfl⟩

/-- C3: `verifyFairOrdering` sorts the proofs by timestamp before running
its ordering check, so the check is vacuous: two individually valid proofs
presented out of chronological order (timestamps 2000 then 1000) are
accepted, where the claim requires the batch to be rejected. -/
theorem c3_out_of_order_valid_proofs_accepted :
    ZkProofs.verifyFairOrdering [ZkProofs.proofAt 2000, ZkProofs.proofAt 1000] = true ∧
    (ZkProofs.proofAt 1000).timestamp < (ZkProofs.proofAt 2000).timestamp ∧
    (ZkProofs.proofAt 2000).isValid = true ∧ (ZkProofs.proofAt 1000).isValid = true :=
  ⟨rfl, by decide, rfl, rfl⟩

/-- C4 counterexample: after a single admission at t = 0 with no further
operations, the intent is still pending and still queued — the close
condition is only ever evaluated inside an admission (`zk/bundler.ts` has
no polling tick), so no bundle containing the intent is ever created,
contradicting the claimed 10-second bound. -/
theorem c4_single_admission_stays_pending :
    (mapGet stA1.pendingIntents (BundlerA.intentId "0xalice" 0)).map
        (fun i => i.status) = some IntentStatus.pending ∧
    stA1.bundleQueue.length = 1 ∧ stA1.pendingIntents.length = 1 :=
  ⟨rfl, rfl, rfl⟩

/-- C4 amended: a pending intent older than `BUNDLE_TIMEOUT` is bundled at
the next close-condition evaluation, but such an evaluation happens only
during an admission. Part one: any admission finding the queue head older
than 10000 ms triggers the close condition. Part two: in the concrete
trace, a second admission at t = 20000 bundles the t = 0 intent. -/
theorem c4_amended_close_condition_only_on_admission :
    (∀ (i : BundlerA.BundleIntent) (rest : List BundlerA.BundleIntent) (now : Int),
      now - i.timestamp > 10000 → BundlerA.shouldCreateBundle (i :: rest) now = true) ∧
    ((mapGet stA2.pendingIntents (BundlerA.intentId "0xalice" 0)).map
        (fun i => i.status) = some IntentStatus.bundled ∧ stA2.bundleQueue = []) := by
  refine ⟨?_, rfl, rfl⟩
  intro i rest now h
  simp [BundlerA.shouldCreateBundle]
  omega

/-- C4 amended, witness: the close condition fires at a concrete admission
time 20000 against a queue head admitted at time 5. -/
theorem c4_amended_witness :
    (20000 : Int) - iB.timestamp > 10000 ∧ BundlerA.shouldCreateBundle [iB] 20000 = true :=
  ⟨by decide, c4_amended_close_condition_only_on_admission.1 iB [] 20000 (by decide)⟩

/-- C5 counterexample: at the exact freshness boundary
`now - timestamp = 300000` the code rejects the proof (it requires the age
to be strictly below 300000), while the claimed condition set — which calls
a proof stale only when the age strictly exceeds 300000 — accepts it. -/
theorem c5_exact_300000ms_boundary_rejected :
    ZkProofs.verifyFairOrderingProof 300001 (ZkProofs.proofAt 1) = false ∧
    ZkProofs.specVerifyIntentProof 300001 (ZkProofs.proofAt 1) = true := by
  decide

/-- C5 amended: `verifyFairOrderingProof` never throws (it is total) and
returns true exactly when the proof is marked valid, carries exactly two
public signals, has a positive timestamp, and is strictly fresher than
300000 ms — so it returns false already at age exactly 300000 ms, and in
particular a proof aged 400000 ms is rejected. -/
theorem c5_amended_verify_characterisation :
    (∀ (now : Int) (p : ZkProofs.FairOrderingProof),
      ZkProofs.verifyFairOrderingProof now p = true ↔
        (p.isValid = true ∧ p.zkProof.publicSignals.length = 2 ∧
         p.timestamp > 0 ∧ now - p.timestamp < 300000)) ∧
    ZkProofs.verifyFairOrderingProof 400001 (ZkProofs.proofAt 1) = false := by
  refine ⟨?_, by decide⟩
  intro now p
  simp [ZkProofs.verifyFairOrderingProof, and_assoc]

/-- C6 counterexample: two intents with equal timestamps and ids `"b"`,
`"a"` admitted in that order. The code bundles them in admission order
`[iB, iA]` (stable sort), while ordering by timestamp with ties broken by
id would require `[iA, iB]` — so the claimed id tie-break does not hold. -/
theorem c6_equal_timestamp_tie_not_broken_by_id :
    BundlerA.bundleMembers [iB, iA] = [iB, iA] ∧
    BundlerA.specFifoMembers [iB, iA] = [iA, iB] ∧
    iB.timestamp = iA.timestamp ∧ strLtB iA.id iB.id = true ∧ iA ≠ iB :=
  ⟨rfl, by decide, rfl, by decide, by decide⟩

/-- C6 amended: the members of a closing batch are the first
`min(pendingCount, 5)` intents of the queue stably sorted by timestamp, so
whenever the queue is already in nondecreasing timestamp order — in
particular for admissions at strictly increasing times, and with
equal-timestamp ties kept in admission order rather than id order — the
member order equals admission order. -/
theorem c6_amended_members_fifo_for_time_ordered_queue :
    ∀ (q : List BundlerA.BundleIntent),
      q.Pairwise (fun a b => a.timestamp ≤ b.timestamp) →
      BundlerA.bundleMembers q = q.take 5 := by
  intro q h
  rw [BundlerA.bundleMembers, sortIntents_of_sorted q h]

/-- C6 amended, witness: a concrete queue with an equal-timestamp tie is
bundled in admission order. -/
theorem c6_amended_witness :
    ([iB, iA] : List BundlerA.BundleIntent).Pairwise (fun a b => a.timestamp ≤ b.timestamp) ∧
    BundlerA.bundleMembers [iB, iA] = ([iB, iA] : List BundlerA.BundleIntent).take 5 :=
  ⟨by decide, c6_amended_members_fifo_for_time_ordered_queue [iB, iA] (by decide)⟩

/-- C7 counterexample: with one pending intent admitted at t = 0 and
now = 10000 — exactly at the `BUNDLE_TIMEOUT` boundary — the code, whose
age comparison is strict, does not close the batch, while the claimed
inclusive condition does. -/
theorem c7_exact_timeout_boundary_not_closed :
    BundlerB.shouldCreateBundle [s1] 10000 = false ∧
    BundlerB.specShouldCreateBundle [s1] 10000 = true := by
  decide

/-- C7 amended: `shouldCreateBundle` returns true exactly when the queue
holds at least five intents, or is nonempty and its oldest member (one with
minimal timestamp) is STRICTLY older than 10000 ms — the boundary age of
exactly 10000 ms does not close the batch. -/
theorem c7_amended_close_condition_strict_characterisation :
    ∀ (q : List Erc4337Types.SwapIntent) (now : Int),
      BundlerB.shouldCreateBundle q now = true ↔
        (5 ≤ q.length ∨ (0 < q.length ∧
          ∃ i, i ∈ q ∧ (∀ j ∈ q, i.timestamp ≤ j.timestamp) ∧ now - i.timestamp > 10000)) := by
  intro q now
  cases q with
  | nil => simp [BundlerB.shouldCreateBundle]
  | cons i rest =>
    obtain ⟨hmem, hle, hall⟩ := foldl_min_spec (rest.map (fun j => j.timestamp)) i.timestamp
    set m := (rest.map (fun j => j.timestamp)).foldl min i.timestamp with hm
    have hminall : ∀ j ∈ i :: rest, m ≤ j.timestamp := by
      intro j hj
      rcases List.mem_cons.mp hj with rfl | hj
      · exact hle
      · exact hall j.timestamp (List.mem_map_of_mem _ hj)
    have hex : ∃ i0, i0 ∈ i :: rest ∧ i0.timestamp = m := by
      rcases hmem with h | h
      · exact ⟨i, by simp, h.symm⟩
      · obtain ⟨j, hj, hjm⟩ := List.mem_map.mp h
        exact ⟨j, List.mem_cons_of_mem i hj, hjm⟩
    simp only [BundlerB.shouldCreateBundle, BundlerB.getOldestIntentAge,
               Bool.or_eq_true, Bool.and_eq_true, decide_eq_true_eq, ← hm]
    constructor
    · rintro (h5 | ⟨_, hage⟩)
      · exact Or.inl h5
      · refine Or.inr ⟨by simp, ?_⟩
        obtain ⟨i0, hi0, hi0m⟩ := hex
        refine ⟨i0, hi0, ?_, by omega⟩
        intro j hj
        rw [hi0m]
        exact hminall j hj
    · rintro (h5 | ⟨_, i0, hi0, _, hi0age⟩)
      · exact Or.inl h5
      · refine Or.inr ⟨by simp, ?_⟩
        have := hminall i0 hi0
        omega

/-- C8 counterexample: `generateBatchProof` applied to the empty intent
list does not fail — no conversion runs, nothing throws, and a proof object
is returned. -/
theorem c8_empty_batch_proof_succeeds :
    (ZkProofs.generateBatchProof []).isOk = true :=
  rfl

/-- C8 amended: on the empty list `generateBatchProof` succeeds with the
degenerate proof whose public signals are `["0"]` (the swap count followed
by no timestamps); a nonempty well-formed batch likewise succeeds, with the
count followed by the member timestamps. -/
theorem c8_amended_empty_batch_returns_degenerate_proof :
    ZkProofs.generateBatchProof [] = Except.ok { publicSignals := ["0"] } ∧
    ZkProofs.generateBatchProof [fInput] = Except.ok { publicSignals := ["1", "5"] } :=
  ⟨rfl, rfl⟩

/-- C9 counterexample: two distinct creations by the same user in the same
millisecond receive the same id (`ethers.id` of the same string), so the
second `Map.set` silently overwrites the first registry entry: after both
creations the registry holds a single entry, carrying the second intent
(amount "200"), while the bundle queue holds two intents. -/
theorem c9_duplicate_creation_overwrites_registry_entry :
    stC2.pendingIntents.length = 1 ∧
    stC2.bundleQueue.length = 2 ∧
    (mapGet stC2.pendingIntents (BundlerA.intentId "0xalice" 1000)).map
        (fun i => i.amount) = some "200" :=
  ⟨rfl, rfl, rfl⟩

/-- C9 amended: the id assigned by `createSwapIntent` of `zk/bundler.ts`
depends only on the user address and the admission millisecond, so for any
two creations by the same user at the same timestamp the registry ends with
exactly one entry — the second creation, which overwrote the first. -/
theorem c9_amended_same_user_same_ms_registry_overwrite :
    ∀ (u ft tt a1 eo1 a2 eo2 : String) (now : Int) (sub1 sub2 : Bool),
      (BundlerA.createSwapIntentOp sub2 now u ft tt a2 eo2
        (BundlerA.createSwapIntentOp sub1 now u ft tt a1 eo1 BundlerA.initialState)).pendingIntents =
      [(BundlerA.intentId u now,
        { id := BundlerA.intentId u now, fromToken := ft, toToken := tt, amount := a2,
          expectedOutput := eo2, timestamp := now, status := IntentStatus.pending })] := by
  intro u ft tt a1 eo1 a2 eo2 now sub1 sub2
  simp [BundlerA.createSwapIntentOp, BundlerA.initialState, BundlerA.shouldCreateBundle,
        mapSet, List.any]

/-- C10: the `getPendingIntents` accessor of `erc4337/bundler.ts` returns
every stored intent regardless of status (its result always has the full
registry length, and on a registry holding bundled, executed and failed
intents it returns all three), whereas the accessor of `zk/bundler.ts`
filters to status pending (its result passes an all-pending check on every
state, and on the post-bundle state `stA2`, whose two intents are bundled,
it is empty). -/
theorem c10_get_pending_intents_no_filter_vs_filter :
    (∀ st : BundlerB.BundlerState,
      (BundlerB.getPendingIntents st).length = st.pendingIntents.length) ∧
    (BundlerB.getPendingIntents stMixedB).map (fun i => i.status) =
      [IntentStatus.bundled, IntentStatus.executed, IntentStatus.failed] ∧
    (∀ st : BundlerA.BundlerState,
      (BundlerA.getPendingIntents st).all (fun i => i.status == IntentStatus.pending) = true) ∧
    BundlerA.getPendingIntents stA2 = [] ∧
    stA2.pendingIntents.length = 2 := by
  refine ⟨?_, rfl, ?_, rfl, rfl⟩
  · intro st
    simp [BundlerB.getPendingIntents, mapValues]
  · intro st
    rw [List.all_eq_true]
    intro i hi
    exact (List.mem_filter.mp hi).2

end DexAggregator
